import Mathlib

/-!
Shallow embedding of the plugin registry and request-validation pipeline of
the vrypt-api repository (src/liblary/loadPlugin.js and the hot-reload
debounce of app.js), together with theorems checking the natural-language
specification against it.

Modelling conventions:
* JavaScript parameter values (query string / JSON body entries) are modelled
  by the inductive `JSValue` (strings, integer numbers, booleans).
* Machine time (`Date.now()`) is an `Int` carried by each request.
* The JS `RegExp` engine used for the user-supplied `pattern` constraint is
  passed in as a capability `regexTest : String -> String -> Bool`
  (pattern, subject); every theorem quantifies over it.
* JS `Map` objects are association lists with `Map.set` semantics
  (`setAssoc`): replace in place if the key is present, append otherwise.
-/

/-! ### Character-list helpers mirroring the JS string primitives

Lean's built-in `String` functions are defined through iterators and do not
reduce well inside the kernel, so the JS string primitives used by the code
(`trim`, `split`, `startsWith`, `endsWith`, `toUpperCase`) are modelled by
structural functions on the underlying character lists. -/

/-- JS `a.startsWith(b)` on character lists. -/
def leadsWith : List Char → List Char → Bool
  | [], _ => true
  | _ :: _, [] => false
  | p :: ps, c :: cs => p = c && leadsWith ps cs

/-- JS `s.split(sep)` for a one-character separator. -/
def splitChar (sep : Char) : List Char → List (List Char)
  | [] => [[]]
  | c :: r =>
      let rest := splitChar sep r
      if c = sep then [] :: rest
      else
        match rest with
        | h :: t => (c :: h) :: t
        | [] => [[c]]

/-- JS `s.trim()` on character lists. -/
def jsTrim (l : List Char) : List Char :=
  ((l.dropWhile Char.isWhitespace).reverse.dropWhile Char.isWhitespace).reverse

/-- JS `s.toUpperCase()` (ASCII, which is all the code relies on). -/
def jsToUpper (s : String) : String :=
  String.mk (s.data.map Char.toUpper)

/-- JS `s.endsWith(suffix)` on character lists. -/
def trailsWith (suf l : List Char) : Bool :=
  leadsWith suf.reverse l.reverse

/-- A JavaScript value as it can appear as a request parameter. -/
inductive JSValue where
  | str (s : String)
  | num (n : Int)
  | bool (b : Bool)
deriving DecidableEq

/-- JS falsiness of a parameter value ("", 0, false are falsy). -/
def jsFalsy : JSValue → Bool
  | .str s => s = ""
  | .num n => n = 0
  | .bool b => b = false

/-- JS `String(value)` coercion for the values we model. -/
def jsToString : JSValue → String
  | .str s => s
  | .num n => toString n
  | .bool b => if b then "true" else "false"

/-- JS `value.length`: defined (as the string length) only on strings;
`undefined` on numbers and booleans. -/
def jsLength : JSValue → Option Nat
  | .str s => some s.length
  | _ => none

/-- JS `x || d` for an optional string field ("" is falsy). -/
def jsOrStr (v : Option String) (d : String) : String :=
  match v with
  | some s => if s = "" then d else s
  | none => d

/-- JS `x || d` for an optional numeric field (0 is falsy). -/
def jsOrInt (v : Option Int) (d : Int) : Int :=
  match v with
  | some n => if n = 0 then d else n
  | none => d

/-! ### JS numeric-string coercion, `!isNaN(Number(value))` -/

/-- Exponent part of a JS decimal literal: optional sign then digits. -/
def jsExpDigits (l : List Char) : Bool :=
  match l with
  | '+' :: r => !r.isEmpty && r.all Char.isDigit
  | '-' :: r => !r.isEmpty && r.all Char.isDigit
  | r => !r.isEmpty && r.all Char.isDigit

/-- Mantissa of a JS decimal literal: `d+`, `d+.d*`, or `.d+`. -/
def jsDecMantissa (l : List Char) : Bool :=
  let intPart := l.takeWhile Char.isDigit
  let rest := l.dropWhile Char.isDigit
  match rest with
  | [] => !intPart.isEmpty
  | '.' :: frac => frac.all Char.isDigit && (!intPart.isEmpty || !frac.isEmpty)
  | _ => false

/-- A JS decimal literal with optional exponent. -/
def jsDecLiteral (l : List Char) : Bool :=
  match l.findIdx? (fun c => c = 'e' || c = 'E') with
  | none => jsDecMantissa l
  | some i => jsDecMantissa (l.take i) && jsExpDigits (l.drop (i + 1))

/-- An unsigned JS numeric literal body: `Infinity` or a decimal literal. -/
def jsUnsignedNumeric (l : List Char) : Bool :=
  l = "Infinity".toList || jsDecLiteral l

/-- Hex / octal / binary literals (no sign allowed before these in JS). -/
def jsRadixLiteral (l : List Char) : Bool :=
  match l with
  | '0' :: 'x' :: r => !r.isEmpty && r.all (fun c => c.isDigit || ('a' ≤ c && c ≤ 'f') || ('A' ≤ c && c ≤ 'F'))
  | '0' :: 'X' :: r => !r.isEmpty && r.all (fun c => c.isDigit || ('a' ≤ c && c ≤ 'f') || ('A' ≤ c && c ≤ 'F'))
  | '0' :: 'o' :: r => !r.isEmpty && r.all (fun c => '0' ≤ c && c ≤ '7')
  | '0' :: 'O' :: r => !r.isEmpty && r.all (fun c => '0' ≤ c && c ≤ '7')
  | '0' :: 'b' :: r => !r.isEmpty && r.all (fun c => c = '0' || c = '1')
  | '0' :: 'B' :: r => !r.isEmpty && r.all (fun c => c = '0' || c = '1')
  | _ => false

/-- Whether `Number(s)` is not NaN for a string `s` (JS string-to-number). -/
def jsNumericStr (s : String) : Bool :=
  let t := jsTrim s.data
  match t with
  | [] => true
  | '+' :: r => jsUnsignedNumeric r
  | '-' :: r => jsUnsignedNumeric r
  | _ => jsUnsignedNumeric t || jsRadixLiteral t

/-- `!isNaN(Number(value))`: numbers and booleans coerce to numbers,
strings go through the string-to-number grammar. -/
def jsNumberNotNaN : JSValue → Bool
  | .str s => jsNumericStr s
  | .num _ => true
  | .bool _ => true

/-! ### The two hard-coded regular expressions of `validateType` -/

/-- A character admissible in the classes of the e-mail regex: not
whitespace and not `@`. -/
def emailChar (c : Char) : Bool := !c.isWhitespace && c ≠ '@'

/-- The domain part must contain a dot that is neither its first nor its
last character (`[^\s@]+\.[^\s@]+` after the `@`). -/
def hasInteriorDot (l : List Char) : Bool :=
  (l.drop 1).dropLast.contains '.'

/-- The test `/^[^\s@]+@[^\s@]+\.[^\s@]+$/.test(value)`. -/
def emailRegexTest (s : String) : Bool :=
  match splitChar '@' s.data with
  | [a, b] =>
      !a.isEmpty && a.all emailChar &&
      !b.isEmpty && b.all emailChar && hasInteriorDot b
  | _ => false

/-- The test `/^https?:\/\/.+/.test(value)`: an `http://` or `https://`
head followed by at least one non-line-terminator character. -/
def urlRegexTest (s : String) : Bool :=
  let rest : Option (List Char) :=
    if leadsWith "https://".data s.data then some (s.data.drop 8)
    else if leadsWith "http://".data s.data then some (s.data.drop 7)
    else none
  match rest with
  | none => false
  | some r =>
      match r with
      | [] => false
      | c :: _ => c ≠ '\n' && c ≠ '\r'

/-- `validateType(value, type)` of loadPlugin.js: the five recognised type
names, and `default: return true` for anything else. -/
def validateType (v : JSValue) (t : String) : Bool :=
  match t with
  | "string" => match v with | .str _ => true | _ => false
  | "number" => jsNumberNotNaN v
  | "boolean" => v = .str "true" || v = .str "false" || (match v with | .bool _ => true | _ => false)
  | "email" => emailRegexTest (jsToString v)
  | "url" => urlRegexTest (jsToString v)
  | _ => true

/-! ### Descriptors (plugin manifests) -/

/-- The `rateLimit` object of a descriptor. The code reads the keys
`limit` and `window`; a descriptor written with some other key (such as
`windowMs`) leaves `window` undefined, modelled as `none`. -/
structure RateLimitCfg where
  limit : Nat
  window : Option Int
deriving DecidableEq

/-- The object form of a ParameterSpec. -/
structure ParamSpecObj where
  name : String
  required : Option Bool
  type : Option String
  min : Option Nat
  max : Option Nat
  pattern : Option String
deriving DecidableEq

/-- A ParameterSpec: either a bare required-name string or an object. -/
inductive ParamSpec where
  | nameOnly (s : String)
  | obj (o : ParamSpecObj)
deriving DecidableEq

/-- A plugin descriptor as the registry sees it after `require`.
`execPresent` records whether the module exported an invocable `exec`. -/
structure Plugin where
  path : Option String
  method : Option String
  name : Option String
  description : Option String
  tags : List String
  authentication : Bool
  parameter : List ParamSpec
  rateLimit : Option RateLimitCfg
  timeout : Option Int
  version : Option String
  deprecated : Bool
  execPresent : Bool
deriving DecidableEq

/-! ### Requests -/

/-- An inbound HTTP request as the guard pipeline inspects it.  `now` is
the value `Date.now()` yields while this request is being handled. -/
structure Request where
  authorization : Option String
  query : List (String × JSValue)
  body : List (String × JSValue)
  ip : String
  now : Int
deriving DecidableEq

/-- Property-bag lookup, `source[name]`. -/
def lookupParam (src : List (String × JSValue)) (k : String) : Option JSValue :=
  (src.find? (fun e => e.1 = k)).map (fun e => e.2)

/-- `!source[name]`: absent or falsy. -/
def jsFalsyOpt (v : Option JSValue) : Bool :=
  match v with
  | none => true
  | some x => jsFalsy x

/-! ### validateAuthentication -/

/-- Result of `validateAuthentication`. -/
inductive AuthResult where
  | ok
  | fail (status : Nat) (message : String)
deriving DecidableEq

/-- `validateAuthentication(req)`: the bearer-token check against the
configured secret (`process.env.TOKEN`, modelled as `envToken`). -/
def validateAuthentication (envToken : Option String) (req : Request) : AuthResult :=
  match req.authorization with
  | none => .fail 401 "Authorization header is required"
  | some h =>
      if h = "" then .fail 401 "Authorization header is required"
      else if !leadsWith "Bearer ".data h.data then
        .fail 401 "Invalid authorization format. Use 'Bearer <token>'"
      else
        match (splitChar ' ' h.data).get? 1 with
        | none => .fail 401 "Token is required"
        | some t =>
            if t.isEmpty then .fail 401 "Token is required"
            else if envToken ≠ some (String.mk t) then .fail 403 "Invalid or expired token"
            else .ok

/-! ### validateParameters -/

/-- The checks one ParameterSpec contributes for one request source
(the body of the `forEach` in `validateParameters`). -/
def paramCheck (regexTest : String → String → Bool)
    (src : List (String × JSValue)) : ParamSpec → List String
  | .nameOnly s =>
      if jsFalsyOpt (lookupParam src s) then ["Parameter '" ++ s ++ "' is required"] else []
  | .obj o =>
      if o.required.getD true && jsFalsyOpt (lookupParam src o.name) then
        ["Parameter '" ++ o.name ++ "' is required"]
      else
        match lookupParam src o.name with
        | none => []
        | some v =>
            (match o.type with
             | some t => if t ≠ "" && !validateType v t then
                 ["Parameter '" ++ o.name ++ "' must be of type " ++ t] else []
             | none => []) ++
            (match o.min, jsLength v with
             | some m, some len => if len < m then
                 ["Parameter '" ++ o.name ++ "' must be at least " ++ toString m ++ " characters"] else []
             | _, _ => []) ++
            (match o.max, jsLength v with
             | some m, some len => if len > m then
                 ["Parameter '" ++ o.name ++ "' must be at most " ++ toString m ++ " characters"] else []
             | _, _ => []) ++
            (match o.pattern with
             | some pat => if pat ≠ "" && !regexTest pat (jsToString v) then
                 ["Parameter '" ++ o.name ++ "' format is invalid"] else []
             | none => [])

/-- Result of `validateParameters`. -/
structure VPResult where
  valid : Bool
  errors : List String
deriving DecidableEq

/-- The parameter source: query string for an explicit GET method, request
body otherwise (`plugin.method?.toUpperCase() === "GET"`). -/
def sourceOf (p : Plugin) (req : Request) : List (String × JSValue) :=
  if p.method.map jsToUpper = some "GET" then req.query else req.body

/-- `validateParameters(plugin, req)`: accumulate the violations of every
ParameterSpec into one error list. -/
def validateParameters (regexTest : String → String → Bool)
    (p : Plugin) (req : Request) : VPResult :=
  if p.parameter.isEmpty then ⟨true, []⟩
  else
    let src := sourceOf p req
    let errors := p.parameter.foldl (fun acc prm => acc ++ paramCheck regexTest src prm) []
    ⟨errors.length = 0, errors⟩

/-! ### checkRateLimit -/

/-- The per-process rate-limit store: key `ip ++ "-" ++ pluginName` to the
recorded request timestamps. -/
abbrev RLStore := List (String × List Int)

/-- JS `Map.set`: replace in place when present, append otherwise. -/
def setAssoc {α : Type} (m : List (String × α)) (k : String) (v : α) :
    List (String × α) :=
  if m.any (fun e => e.1 = k) then
    m.map (fun e => if e.1 = k then (k, v) else e)
  else m ++ [(k, v)]

/-- JS `Map.get` with `|| []` default. -/
def getTimes (store : RLStore) (k : String) : List Int :=
  ((store.find? (fun e => e.1 = k)).map (fun e => e.2)).getD []

/-- `Math.min(...l)` for a nonempty list; `none` models the `Infinity` of
an empty spread. -/
def jsMinList (l : List Int) : Option Int :=
  match l with
  | [] => none
  | x :: xs => some (xs.foldl min x)

/-- `Math.ceil(a / b)` on exact integers, for `b > 0` (integer `/` is
Euclidean division, i.e. floor for a positive divisor). -/
def jsCeilDiv (a b : Int) : Int := -((-a) / b)

/-- The rate-limit key `${req.ip}-${plugin.name}` (template-literal
stringification sends an undefined name to the string "undefined"). -/
def rlKey (req : Request) (p : Plugin) : String :=
  req.ip ++ "-" ++ (match p.name with | some s => s | none => "undefined")

/-- Result of `checkRateLimit`.  `retryAfter` is `none` both when the
request is allowed and when the JS computation would yield NaN. -/
structure RLResult where
  allowed : Bool
  retryAfter : Option Int
deriving DecidableEq

/-- The `validRequests` list of `checkRateLimit`: the stored timestamps
surviving the lazy prune.  The filter keeps a timestamp iff
`now - time < window`; with `window` undefined (`none`) that JS
comparison is false for every entry. -/
def rlPruned (store : RLStore) (req : Request) (p : Plugin)
    (rl : RateLimitCfg) : List Int :=
  (getTimes store (rlKey req p)).filter (fun time =>
    match rl.window with
    | none => false
    | some w => req.now - time < w)

/-- `checkRateLimit(req, plugin)` of loadPlugin.js, called only when
`plugin.rateLimit` is set; returns the result and the updated store. -/
def checkRateLimit (store : RLStore) (req : Request) (p : Plugin)
    (rl : RateLimitCfg) : RLResult × RLStore :=
  let key := rlKey req p
  let now := req.now
  let validRequests := rlPruned store req p rl
  if rl.limit ≤ validRequests.length then
    let retryAfter : Option Int :=
      match jsMinList validRequests, rl.window with
      | some oldest, some w => some (jsCeilDiv (w - (now - oldest)) 1000)
      | _, _ => none
    (⟨false, retryAfter⟩, store)
  else
    (⟨true, none⟩, setAssoc store key (validRequests ++ [now]))

/-! ### withValidation: the guard pipeline -/

/-- The observable outcome of the guard pipeline for one request:
an auth failure (401/403), a 400 validation failure, a 429 rate-limit
denial, or proceeding to the timeout-bounded `exec` stage. -/
inductive GuardOutcome where
  | authFail (status : Nat) (message : String)
  | validationFail (errors : List String)
  | rateLimited (retryAfter : Option Int)
  | execute
deriving DecidableEq

/-- `withValidation(plugin)` applied to one request: authentication (only
if configured), then parameter validation, then rate limiting (only if
configured), short-circuiting on the first failure, then the `exec`
stage.  Returns the outcome and the rate-limit store after the call. -/
def withValidation (envToken : Option String)
    (regexTest : String → String → Bool) (p : Plugin)
    (store : RLStore) (req : Request) : GuardOutcome × RLStore :=
  let authRes := if p.authentication then validateAuthentication envToken req else .ok
  match authRes with
  | .fail st msg => (.authFail st msg, store)
  | .ok =>
      let vr := validateParameters regexTest p req
      if !vr.valid then (.validationFail vr.errors, store)
      else
        match p.rateLimit with
        | some rl =>
            let r := checkRateLimit store req p rl
            if !r.1.allowed then (.rateLimited r.1.retryAfter, r.2)
            else (.execute, r.2)
        | none => (.execute, store)

/-- Run a sequence of requests through one plugin's guard pipeline,
threading the rate-limit store. -/
def runRequests (envToken : Option String)
    (regexTest : String → String → Bool) (p : Plugin) :
    RLStore → List Request → List GuardOutcome × RLStore
  | store, [] => ([], store)
  | store, r :: rs =>
      let o := withValidation envToken regexTest p store r
      let rest := runRequests envToken regexTest p o.2 rs
      (o.1 :: rest.1, rest.2)

/-! ### validatePlugin: the manifest validator -/

/-- The five supported verbs. -/
def allowedMethods : List String := ["GET", "POST", "PUT", "DELETE", "PATCH"]

/-- `validatePlugin(plugin, file)`: accumulate all structural failures.
(The `typeof plugin !== "object"` guard cannot fire in this embedding,
where a loaded module is always a `Plugin` record.) -/
def validatePlugin (p : Plugin) : VPResult :=
  let e1 := if (match p.path with | none => true | some s => s = "") then
      ["Plugin must have a valid 'path' property"] else []
  let e2 := if p.execPresent then [] else ["Plugin must have a valid 'exec' function"]
  let e3 := if allowedMethods.contains (jsToUpper (p.method.getD "GET")) then [] else
      ["Method '" ++ p.method.getD "GET" ++ "' is not supported. Use: GET, POST, PUT, DELETE, PATCH"]
  let e4 := match p.path with
    | some rp => if rp ≠ "" && !leadsWith "/".data rp.data then
        ["Route path must start with '/'"] else []
    | none => []
  let errors := e1 ++ e2 ++ e3 ++ e4
  ⟨errors.length = 0, errors⟩

/-! ### The registry: routes map, plugins map, endpoints list, router stack -/

/-- The registry's record of what is mounted for one plugin file. -/
structure RouteEntry where
  routePath : String
  method : String
deriving DecidableEq

/-- `plugin.method?.toUpperCase() || "GET"` (the route-mounting and
endpoint-metadata method normalisation). -/
def effMethod (p : Plugin) : String :=
  match p.method with
  | none => "GET"
  | some m => if jsToUpper m = "" then "GET" else jsToUpper m

/-- `file.replace(/\.js$/, "")`. -/
def stripJsSuffix (f : String) : String :=
  if trailsWith ".js".data f.data then String.mk (f.data.take (f.data.length - 3)) else f

/-- The denormalised endpoint metadata stored at registration time. -/
structure Endpoint where
  path : String
  name : String
  description : String
  authentication : Bool
  method : String
  tags : List String
  parameter : List ParamSpec
  version : String
  deprecated : Bool
  rateLimit : Option RateLimitCfg
  timeout : Int
deriving DecidableEq

/-- The endpoint object built by `updateEndpointsRegistry`. -/
def mkEndpoint (p : Plugin) (file : String) : Endpoint :=
  { path := p.path.getD ""
    name := jsOrStr p.name (stripJsSuffix file)
    description := jsOrStr p.description ""
    authentication := p.authentication
    method := effMethod p
    tags := p.tags
    parameter := p.parameter
    version := jsOrStr p.version "1.0.0"
    deprecated := p.deprecated
    rateLimit := p.rateLimit
    timeout := jsOrInt p.timeout 30000 }

/-- JS `Map.get`. -/
def getAssoc {α : Type} (m : List (String × α)) (k : String) : Option α :=
  (m.find? (fun e => e.1 = k)).map (fun e => e.2)

/-- JS `Map.delete`. -/
def delAssoc {α : Type} (m : List (String × α)) (k : String) : List (String × α) :=
  m.filter (fun e => e.1 ≠ k)

/-- The PluginManager state together with the host router's route stack.
A stack entry is the `(path, METHOD)` of one mounted route layer. -/
structure RegState where
  routes : List (String × RouteEntry)
  plugins : List (String × Plugin)
  endpoints : List Endpoint
  stack : List (String × String)
deriving DecidableEq

/-- The freshly constructed PluginManager. -/
def initState : RegState := ⟨[], [], [], []⟩

/-- `unregisterPlugin(app, file)`: if a route is recorded for the file,
drop the matching `(path, method)` layers from the router stack, delete
the routes and plugins entries, and drop the endpoint metadata whose
`(path, method)` matches the old route. -/
def unregisterPlugin (s : RegState) (file : String) : RegState :=
  match getAssoc s.routes file with
  | none => s
  | some old =>
      { routes := delAssoc s.routes file
        plugins := delAssoc s.plugins file
        endpoints := s.endpoints.filter (fun e =>
          !(e.path = old.routePath && e.method = old.method))
        stack := s.stack.filter (fun l =>
          !(l.1 = old.routePath && l.2 = old.method)) }

/-- `registerRoute(app, plugin, file)`: mount the wrapped handler on the
router (push a stack entry) and record the Route Entry.  `none` models
the `throw` of the `default` switch branch for an unsupported method. -/
def registerRoute (s : RegState) (p : Plugin) (file : String) : Option RegState :=
  let method := effMethod p
  let routePath := p.path.getD ""
  if allowedMethods.contains method then
    some { s with
      stack := s.stack ++ [(routePath, method)]
      routes := setAssoc s.routes file ⟨routePath, method⟩ }
  else none

/-- `updateEndpointsRegistry(plugin, file)`. -/
def updateEndpointsRegistry (s : RegState) (p : Plugin) (file : String) : RegState :=
  { s with endpoints := s.endpoints ++ [mkEndpoint p file] }

/-- `loadPlugin(app, file, pluginsDir)` with the module's current
descriptor `p`: validate, then unregister the old route, then register
and record.  Returns the new state and the boolean result. -/
def loadPlugin (s : RegState) (file : String) (p : Plugin) : RegState × Bool :=
  if !(validatePlugin p).valid then (s, false)
  else
    let s1 := unregisterPlugin s file
    match registerRoute s1 p file with
    | none => (s1, false)
    | some s2 =>
        let s3 := { s2 with plugins := setAssoc s2.plugins file p }
        let s4 := updateEndpointsRegistry s3 p file
        (s4, true)

/-- A registry operation: a (re)load of a file with the descriptor its
source currently holds, or an explicit unregister. -/
inductive RegOp where
  | load (file : String) (p : Plugin)
  | unreg (file : String)

/-- Apply one operation. -/
def applyOp (s : RegState) : RegOp → RegState
  | .load f p => (loadPlugin s f p).1
  | .unreg f => unregisterPlugin s f

/-- The state reached from a fresh PluginManager by a sequence of
operations. -/
def runOps (ops : List RegOp) : RegState := ops.foldl applyOp initState

/-! ### getEndpoints -/

/-- The filter object accepted by `getEndpoints`. -/
structure EndpointFilters where
  method : Option String
  authenticated : Option Bool
  tag : Option String
  deprecated : Option Bool
  sortBy : Option String
  sortOrder : Option String
deriving DecidableEq

/-- Dynamic field access `endpoint[sortBy]`, restricted to what the sort
comparator needs: `some` for the string-valued fields (on which
`localeCompare` exists), `none` for every other or unknown field (whose
value has no `localeCompare` method, so calling it throws). -/
def endpointField (e : Endpoint) : String → Option String
  | "path" => some e.path
  | "name" => some e.name
  | "description" => some e.description
  | "method" => some e.method
  | "version" => some e.version
  | _ => none

/-- The filtering stage of `getEndpoints` (a fresh copy of the endpoint
list narrowed by the four optional filters).  `filters.method` and
`filters.tag` are guarded by JS truthiness (`""` skips the filter), while
`filters.authenticated` and `filters.deprecated` use `!== undefined`. -/
def filterEndpoints (s : RegState) (f : EndpointFilters) : List Endpoint :=
  let l0 := s.endpoints
  let l1 := match f.method with
    | none => l0
    | some m =>
        if m = "" then l0 else l0.filter (fun e => e.method = jsToUpper m)
  let l2 := match f.authenticated with
    | none => l1
    | some b => l1.filter (fun e => e.authentication = b)
  let l3 := match f.tag with
    | none => l2
    | some t =>
        if t = "" then l2 else l2.filter (fun e => e.tags.contains t)
  match f.deprecated with
  | none => l3
  | some b => l3.filter (fun e => e.deprecated = b)

/-- Result of a call that can throw (JS exception propagation). -/
inductive JsOutcome (α : Type) where
  | ok (v : α)
  | thrown (msg : String)
deriving DecidableEq

/-- Whether a call returned normally. -/
def JsOutcome.returnedNormally {α : Type} : JsOutcome α → Bool
  | .ok _ => true
  | .thrown _ => false

/-- Insertion step of the sort. -/
def insertSorted (le : Endpoint → Endpoint → Bool) (x : Endpoint) :
    List Endpoint → List Endpoint
  | [] => [x]
  | y :: ys => if le x y then x :: y :: ys else y :: insertSorted le x ys

/-- The sort used when every compared field is a string (the order itself
is modelled as code-point order; the claims only rely on the call
returning normally). -/
def sortEndpoints (le : Endpoint → Endpoint → Bool) :
    List Endpoint → List Endpoint
  | [] => []
  | x :: xs => insertSorted le x (sortEndpoints le xs)

/-- `getEndpoints(filters)`: filter, then optionally sort by
`filters.sortBy` with a comparator that calls `localeCompare` on the
field of its first argument.  JS `Array.prototype.sort` never invokes the
comparator on fewer than two elements; with two or more, a non-string
field value makes the comparator throw a `TypeError`, modelled as
`JsOutcome.thrown`.  The sort is guarded by the JS truthiness test
`if (filters.sortBy)`, so the falsy `""` key skips sorting. -/
def getEndpoints (s : RegState) (f : EndpointFilters) : JsOutcome (List Endpoint) :=
  let filtered := filterEndpoints s f
  match f.sortBy with
  | none => .ok filtered
  | some key =>
      if key = "" then .ok filtered
      else if filtered.length ≤ 1 then .ok filtered
      else if filtered.all (fun e => (endpointField e key).isSome) then
        let le : Endpoint → Endpoint → Bool := fun a b =>
          let av := (endpointField a key).getD ""
          let bv := (endpointField b key).getD ""
          if f.sortOrder = some "desc" then decide (bv ≤ av) else decide (av ≤ bv)
        .ok (sortEndpoints le filtered)
      else .thrown "TypeError: localeCompare is not a function"

/-! ### The hot-reload debounce of app.js

`debouncePluginReload(filename)` clears the single shared timeout handle
`this.pluginReloadTimeout` and arms a new 1000 ms timer for `filename`.
The model replays a time-ordered list of change events `(filename, t)`:
a pending timer whose fire time has passed fires (its file is reloaded)
before the next event is handled; otherwise the event's `clearTimeout`
cancels it.  After the last event the remaining timer fires.  The result
is the list of files reloaded, in order. -/
def debounceRun : Option (String × Int) → List (String × Int) → List String
  | pending, [] =>
      (match pending with
       | some gp => [gp.1]
       | none => [])
  | pending, ev :: evs =>
      match pending with
      | some gp =>
          if gp.2 ≤ ev.2 then gp.1 :: debounceRun (some (ev.1, ev.2 + 1000)) evs
          else debounceRun (some (ev.1, ev.2 + 1000)) evs
      | none => debounceRun (some (ev.1, ev.2 + 1000)) evs

/-! ### Concrete descriptors and requests used by witnesses and
counterexamples -/

/-- A minimal valid GET descriptor at `/p`. -/
def basicPlugin : Plugin :=
  { path := some "/p", method := some "GET", name := some "pi",
    description := none, tags := [], authentication := false,
    parameter := [], rateLimit := none, timeout := none, version := none,
    deprecated := false, execPresent := true }

/-- A request from client ip `c` at time `t`, no headers, no parameters. -/
def bareReq (t : Int) : Request := ⟨none, [], [], "c", t⟩

/-- `basicPlugin` with the rate limit written with the key `window`,
as every bundled plugin writes it. -/
def rlWindowPlugin : Plugin :=
  { basicPlugin with rateLimit := some ⟨3, some 1000⟩ }

/-- `basicPlugin` with a rate limit written `{limit: 3, windowMs: 1000}`:
the code destructures the key `window`, which such an object does not
have, so `window` is undefined. -/
def rlWindowMsPlugin : Plugin :=
  { basicPlugin with rateLimit := some ⟨3, none⟩ }

/-- The registry state after one file `f` holding descriptor `p` has been
successfully (re)registered, and nothing else. -/
def registeredState (f : String) (p : Plugin) : RegState :=
  { routes := [(f, ⟨p.path.getD "", effMethod p⟩)]
    plugins := [(f, p)]
    endpoints := [mkEndpoint p f]
    stack := [(p.path.getD "", effMethod p)] }

/-- The at-most-one-Route-Entry-per-file invariant: the routes map has
duplicate-free keys. -/
def RoutesKeysNodup (s : RegState) : Prop := (s.routes.map Prod.fst).Nodup

/-- The GET descriptor with one required `url` parameter. -/
def reqParamPlugin : Plugin :=
  { basicPlugin with parameter := [.obj ⟨"url", some true, none, none, none, none⟩] }

/-- A request that does supply `url` in the query string — with the empty
string as its value. -/
def emptyUrlReq : Request := { bareReq 0 with query := [("url", .str "")] }

/-! ### Helper lemmas -/

/-- What the manifest validator accepts: a nonempty path starting with
`/`, an invocable `exec`, and a supported method (case-insensitively). -/
theorem validatePlugin_valid_iff (p : Plugin) :
    (validatePlugin p).valid = true ↔
      ((∃ rp, p.path = some rp ∧ rp ≠ "" ∧ leadsWith "/".data rp.data = true) ∧
       p.execPresent = true ∧
       allowedMethods.contains (jsToUpper (p.method.getD "GET")) = true) := by
  rcases p with ⟨pa, me, na, de, ta, au, par, rl, ti, ve, dp, ex⟩
  cases pa with
  | none => simp [validatePlugin]
  | some rp =>
      by_cases hrp : rp = "" <;>
        by_cases hex : ex = true <;>
        by_cases hme : allowedMethods.contains (jsToUpper (me.getD "GET")) = true <;>
        by_cases hsl : leadsWith "/".data rp.data = true <;>
        simp_all [validatePlugin]

/-- `setAssoc` keeps the key list duplicate-free. -/
theorem nodup_keys_setAssoc {α : Type} (m : List (String × α)) (k : String) (v : α)
    (h : (m.map Prod.fst).Nodup) : ((setAssoc m k v).map Prod.fst).Nodup := by
  unfold setAssoc
  by_cases hk : m.any (fun e => e.1 = k) = true
  · rw [if_pos hk]
    have : (m.map (fun e => if e.1 = k then (k, v) else e)).map Prod.fst = m.map Prod.fst := by
      rw [List.map_map]
      apply List.map_congr_left
      intro e _
      by_cases he : e.1 = k
      · simp [he]
      · simp [he]
    rw [this]; exact h
  · rw [if_neg hk]
    have hk' : k ∉ m.map Prod.fst := by
      intro hmem
      rcases List.mem_map.mp hmem with ⟨e, he, hfst⟩
      exact hk (List.any_eq_true.mpr ⟨e, he, by simp [hfst]⟩)
    simp only [List.map_append, List.map_cons, List.map_nil]
    exact List.Nodup.append h (List.nodup_singleton k) (by
      intro a ha hb
      simp only [List.mem_singleton] at hb
      subst hb
      exact hk' ha)

/-- `delAssoc` keeps the key list duplicate-free. -/
theorem nodup_keys_delAssoc {α : Type} (m : List (String × α)) (k : String)
    (h : (m.map Prod.fst).Nodup) : ((delAssoc m k).map Prod.fst).Nodup :=
  List.Nodup.sublist (List.Sublist.map Prod.fst (List.filter_sublist m)) h



/-- `unregisterPlugin` preserves the routes-key invariant. -/
theorem unregister_nodup (s : RegState) (f : String) (h : RoutesKeysNodup s) :
    RoutesKeysNodup (unregisterPlugin s f) := by
  unfold unregisterPlugin
  cases hg : getAssoc s.routes f with
  | none => exact h
  | some old => exact nodup_keys_delAssoc s.routes f h

/-- `loadPlugin` preserves the routes-key invariant. -/
theorem loadPlugin_nodup (s : RegState) (f : String) (p : Plugin)
    (h : RoutesKeysNodup s) : RoutesKeysNodup (loadPlugin s f p).1 := by
  unfold loadPlugin
  by_cases hv : (validatePlugin p).valid = true
  · simp only [hv, Bool.not_true, Bool.false_eq_true, if_false]
    have h1 : RoutesKeysNodup (unregisterPlugin s f) := unregister_nodup s f h
    unfold registerRoute
    by_cases hm : allowedMethods.contains (effMethod p) = true
    · simp only [hm, if_true]
      exact nodup_keys_setAssoc _ _ _ h1
    · simp only [hm, if_false]
      exact h1
  · simp only [Bool.not_eq_true] at hv
    simp only [hv, Bool.not_false, if_true]
    exact h

/-- Every operation preserves the routes-key invariant. -/
theorem applyOp_nodup (s : RegState) (op : RegOp) (h : RoutesKeysNodup s) :
    RoutesKeysNodup (applyOp s op) := by
  cases op with
  | load f p => exact loadPlugin_nodup s f p h
  | unreg f => exact unregister_nodup s f h

/-- The invariant holds along any foldl of operations. -/
theorem foldl_nodup (ops : List RegOp) : ∀ s : RegState, RoutesKeysNodup s →
    RoutesKeysNodup (ops.foldl applyOp s) := by
  induction ops with
  | nil => intro s h; exact h
  | cons op ops ih => intro s h; exact ih _ (applyOp_nodup s op h)



/-- A valid descriptor normalises to a supported method. -/
theorem effMethod_allowed (p : Plugin) (hv : (validatePlugin p).valid = true) :
    allowedMethods.contains (effMethod p) = true := by
  rcases (validatePlugin_valid_iff p).mp hv with ⟨-, -, hme⟩
  unfold effMethod
  cases hm : p.method with
  | none =>
      have : jsToUpper "GET" = "GET" := by decide
      simpa [hm, this] using hme
  | some m =>
      rw [hm] at hme
      simp only [Option.getD_some] at hme
      have hne : jsToUpper m ≠ "" := by
        intro hemp
        rw [hemp] at hme
        exact absurd hme (by decide)
      simpa [hne] using hme

/-- Unregistering a file that holds the only registration empties the
registry. -/
theorem unregister_registeredState (f : String) (p : Plugin) :
    unregisterPlugin (registeredState f p) f = initState := by
  unfold unregisterPlugin registeredState getAssoc delAssoc initState
  simp [mkEndpoint]

/-- Loading a valid descriptor into the empty registry produces exactly
the one-plugin state. -/
theorem loadPlugin_into_init (f : String) (p : Plugin)
    (hv : (validatePlugin p).valid = true) :
    loadPlugin initState f p = (registeredState f p, true) := by
  unfold loadPlugin
  rw [hv]
  simp only [Bool.not_true, Bool.false_eq_true, if_false]
  have hu : unregisterPlugin initState f = initState := rfl
  rw [hu]
  simp only [registerRoute, effMethod_allowed p hv, if_true]
  simp [initState, setAssoc, updateEndpointsRegistry, registeredState]

/-- Reloading the same file with a valid descriptor swaps the one-plugin
state. -/
theorem loadPlugin_reload (f : String) (q p : Plugin)
    (hv : (validatePlugin p).valid = true) :
    loadPlugin (registeredState f q) f p = (registeredState f p, true) := by
  unfold loadPlugin
  rw [hv]
  simp only [Bool.not_true, Bool.false_eq_true, if_false]
  rw [unregister_registeredState]
  simp only [registerRoute, effMethod_allowed p hv, if_true]
  simp [initState, setAssoc, updateEndpointsRegistry, registeredState]

/-- Folding further valid loads of the same file over the one-plugin
state lands at the one-plugin state of the last descriptor. -/
theorem loads_same_file (f : String) :
    ∀ (qs : List Plugin) (q0 : Plugin),
    (∀ q ∈ qs, (validatePlugin q).valid = true) →
    qs.foldl (fun s q => (loadPlugin s f q).1) (registeredState f q0)
      = registeredState f (qs.getLastD q0) := by
  intro qs
  induction qs with
  | nil => intro q0 _; rfl
  | cons q qs ih =>
      intro q0 hall
      have hq : (validatePlugin q).valid = true := hall q (by simp)
      have hrest : ∀ r ∈ qs, (validatePlugin r).valid = true := by
        intro r hr; exact hall r (by simp [hr])
      simp only [List.foldl_cons, List.getLastD_cons]
      rw [loadPlugin_reload f q0 q hq]
      exact ih q hrest

/-- C1 (amended): in every state reachable by any sequence of
load/unregister operations there is at most one Route Entry per file
identity (the routes map's key list is duplicate-free), and for every
sequence of `load(f)` calls with valid descriptors on one file `f` from
the fresh registry, the host router's stack holds exactly one entry after
each call, namely the `(path, method)` of the last loaded descriptor.
(The original claim's stronger assertion — that the stack never holds two
entries for the same `(path, method)` pair across different files — is
false; see the counterexample.) -/
theorem c1_route_uniqueness :
    (∀ ops : List RegOp, ((runOps ops).routes.map Prod.fst).Nodup) ∧
    (∀ (f : String) (qs : List Plugin) (p : Plugin),
      (∀ q ∈ qs, (validatePlugin q).valid = true) →
      (validatePlugin p).valid = true →
      ((qs ++ [p]).foldl (fun s q => (loadPlugin s f q).1) initState).stack
        = [(p.path.getD "", effMethod p)]) := by
  constructor
  · intro ops
    exact foldl_nodup ops initState (by simp [RoutesKeysNodup, initState])
  · intro f qs p hall hp
    cases qs with
    | nil =>
        simp only [List.nil_append, List.foldl_cons, List.foldl_nil]
        rw [loadPlugin_into_init f p hp]
        rfl
    | cons q qs' =>
        have hq : (validatePlugin q).valid = true := hall q (by simp)
        simp only [List.cons_append, List.foldl_cons]
        rw [loadPlugin_into_init f q hq]
        rw [loads_same_file f (qs' ++ [p]) q (by
          intro r hr
          rcases List.mem_append.mp hr with h1 | h2
          · exact hall r (by simp [h1])
          · simp only [List.mem_singleton] at h2
            rw [h2]; exact hp)]
        rw [List.getLastD_concat]
        rfl

/-- C1 counterexample: loading two different files whose valid descriptors
share `(path, method)` leaves two simultaneous router-stack entries for
`("/p", "GET")`, refuting the claimed global stack uniqueness. -/
theorem c1_counterexample :
    ((runOps [.load "a.js" basicPlugin, .load "b.js" basicPlugin]).stack.count
      ("/p", "GET")) = 2 := by decide

/-- C1 witness: two loads of the same file, the second changing the path,
leave exactly one stack entry for the latest descriptor. -/
theorem c1_witness :
    (([basicPlugin] ++ [{ basicPlugin with path := some "/q" }]).foldl
        (fun s q => (loadPlugin s "a.js" q).1) initState).stack
      = [("/q", "GET")] := by
  have h := c1_route_uniqueness.2 "a.js" [basicPlugin]
    { basicPlugin with path := some "/q" }
    (by intro q hq; simp only [List.mem_singleton] at hq; rw [hq]; decide)
    (by decide)
  rw [h]
  decide

/-- C8: a descriptor missing `path`, missing an invocable `exec`, or
carrying a method outside GET/POST/PUT/DELETE/PATCH (case-insensitively)
is rejected atomically: `load` returns false and the registry state —
routes map, plugins map, endpoints list, router stack — is exactly the
input state. -/
theorem c8_invalid_descriptor_atomic (s : RegState) (file : String) (p : Plugin)
    (h : p.path = none ∨ p.execPresent = false ∨
      allowedMethods.contains (jsToUpper (p.method.getD "GET")) = false) :
    loadPlugin s file p = (s, false) := by
  have hv : (validatePlugin p).valid = false := by
    cases hb : (validatePlugin p).valid with
    | false => rfl
    | true =>
        rcases (validatePlugin_valid_iff p).mp hb with ⟨⟨rp, hrp, -, -⟩, hex, hme⟩
        rcases h with h1 | h2 | h3
        · rw [h1] at hrp; exact Option.noConfusion hrp
        · rw [hex] at h2; exact Bool.noConfusion h2
        · rw [hme] at h3; exact Bool.noConfusion h3
  unfold loadPlugin
  rw [hv]
  simp

/-- C8 witness: a descriptor without `exec` is rejected and the fresh
registry is untouched. -/
theorem c8_witness :
    loadPlugin initState "broken.js" { basicPlugin with execPresent := false }
      = (initState, false) :=
  c8_invalid_descriptor_atomic initState "broken.js"
    { basicPlugin with execPresent := false } (Or.inr (Or.inl (by decide)))

/-- While a pending timer has not yet expired at the time of the next
event, the run reloads exactly the last file of the burst. -/
theorem debounce_pending (evs : List (String × Int)) :
    ∀ prev : String × Int,
    List.Chain' (fun a b => b.2 < a.2 + 1000) (prev :: evs) →
    debounceRun (some (prev.1, prev.2 + 1000)) evs = [(evs.getLastD prev).1] := by
  induction evs with
  | nil => intro prev _; rfl
  | cons ev evs ih =>
      intro prev hch
      rw [List.chain'_cons] at hch
      have hlt : ev.2 < prev.2 + 1000 := hch.1
      have : ¬ prev.2 + 1000 ≤ ev.2 := by omega
      simp only [debounceRun, this, if_false, List.getLastD_cons]
      exact ih ev hch.2

/-- C2 (amended): the hot-reload debounce uses one shared timer, not one
per filename: any change event cancels the pending reload regardless of
file.  For a burst of change events in which each event arrives within
1000 ms of its predecessor, exactly one reload happens, of the file named
by the last event — so same-file repeats collapse into one reload, and an
earlier different file's pending reload is lost.  (The original claim
that two different files changed inside one window are both reloaded is
false; see the counterexample.) -/
theorem c2_debounce_single_timer :
    ∀ (e : String × Int) (evs : List (String × Int)),
    List.Chain' (fun a b => b.2 < a.2 + 1000) (e :: evs) →
    debounceRun none (e :: evs) = [(evs.getLastD e).1] := by
  intro e evs hch
  have h0 : debounceRun none (e :: evs) = debounceRun (some (e.1, e.2 + 1000)) evs := rfl
  rw [h0]
  exact debounce_pending evs e hch

/-- C2 counterexample: change events for the two files `a.js` (at 0 ms)
and `b.js` (at 500 ms) fall in the same 1000 ms quiescence window, yet
only `b.js` is ever reloaded — `a.js`'s pending reload is cancelled by
the shared `clearTimeout`. -/
theorem c2_counterexample :
    debounceRun none [("a.js", 0), ("b.js", 500)] = ["b.js"] ∧
    "a.js" ∉ debounceRun none [("a.js", 0), ("b.js", 500)] := by
  constructor
  · decide
  · decide

/-- C2 witness: a burst touching `a.js` twice and then `b.js`, each event
within 1000 ms of the previous one, reloads only `b.js`, once. -/
theorem c2_witness :
    debounceRun none [("a.js", 0), ("a.js", 400), ("b.js", 800)] = ["b.js"] := by
  have h := c2_debounce_single_timer ("a.js", 0) [("a.js", 400), ("b.js", 800)]
    (by norm_num [List.chain'_cons, List.chain'_singleton])
  simpa using h

/-- Keys other than the five string-valued endpoint fields resolve to a
value without a `localeCompare` method. -/
theorem endpointField_none (key : String)
    (h : key ∉ (["path", "name", "description", "method", "version"] : List String)) :
    ∀ e : Endpoint, endpointField e key = none := by
  intro e
  unfold endpointField
  split <;> simp_all

/-- C10 (amended): when `sortBy` names one of the string-valued endpoint
fields (path, name, description, method, version), `getEndpoints` returns
normally; when it is the falsy empty string the JS truthiness guard
`if (filters.sortBy)` skips sorting entirely and the filtered snapshot is
returned; when it names any other field (deprecated, authentication,
parameter, rateLimit, tags, timeout, or an unknown key) and at least two
endpoints survive the filters, the comparator calls `localeCompare` on a
non-string receiver and the call raises a TypeError.  (With fewer than
two surviving endpoints JS `sort` never invokes the comparator, so the
original unconditional claim of an exception is false; see the
counterexample.) -/
theorem c10_sortby_field_types :
    ∀ (s : RegState) (f : EndpointFilters) (key : String),
    f.sortBy = some key →
    ((key ∈ (["path", "name", "description", "method", "version"] : List String) →
        (getEndpoints s f).returnedNormally = true) ∧
     (key = "" →
        getEndpoints s f = .ok (filterEndpoints s f)) ∧
     (key ∉ (["path", "name", "description", "method", "version"] : List String) →
        key ≠ "" →
        2 ≤ (filterEndpoints s f).length →
        getEndpoints s f = .thrown "TypeError: localeCompare is not a function")) := by
  intro s f key hkey
  refine ⟨?_, ?_, ?_⟩
  · intro hmem
    have hne : key ≠ "" := by
      intro he
      rw [he] at hmem
      exact absurd hmem (by decide)
    unfold getEndpoints
    rw [hkey]
    by_cases hlen : (filterEndpoints s f).length ≤ 1
    · simp [hne, hlen, JsOutcome.returnedNormally]
    · have hall : (filterEndpoints s f).all (fun e => (endpointField e key).isSome) = true := by
        rw [List.all_eq_true]
        intro e _
        fin_cases hmem <;> rfl
      simp [hne, hlen, hall, JsOutcome.returnedNormally]
  · intro hemp
    unfold getEndpoints
    rw [hkey]
    simp [hemp]
  · intro hmem hne hlen
    unfold getEndpoints
    rw [hkey]
    have h1 : ¬ (filterEndpoints s f).length ≤ 1 := by omega
    have hall : (filterEndpoints s f).all (fun e => (endpointField e key).isSome) = false := by
      cases hfe : filterEndpoints s f with
      | nil => rw [hfe] at hlen; simp at hlen
      | cons e rest => simp [List.all_cons, endpointField_none key hmem e]
    simp [hne, h1, hall]

/-- C10 counterexample: with one registered endpoint, `getEndpoints` with
`sortBy: "deprecated"` (a boolean field) returns a normal snapshot — the
comparator is never invoked on a list of fewer than two elements — so the
claimed exception does not occur. -/
theorem c10_counterexample :
    getEndpoints (runOps [.load "a.js" basicPlugin])
      ⟨none, none, none, none, some "deprecated", none⟩
      = .ok [mkEndpoint basicPlugin "a.js"] := by decide

/-- C10 witness: with two registered endpoints, sorting by the boolean
field `deprecated` raises, while this same state sorted by `path` would
return normally. -/
theorem c10_witness :
    getEndpoints
      (runOps [.load "a.js" basicPlugin,
               .load "b.js" { basicPlugin with path := some "/q" }])
      ⟨none, none, none, none, some "deprecated", none⟩
      = .thrown "TypeError: localeCompare is not a function" :=
  (c10_sortby_field_types
    (runOps [.load "a.js" basicPlugin,
             .load "b.js" { basicPlugin with path := some "/q" }])
    ⟨none, none, none, none, some "deprecated", none⟩ "deprecated" rfl).2.2
    (by decide) (by decide) (by decide)

/-- The `default` branch of `validateType` accepts every value. -/
theorem validateType_default (t : String)
    (h : t ∉ (["string", "number", "boolean", "email", "url"] : List String)) :
    ∀ v : JSValue, validateType v t = true := by
  intro v
  unfold validateType
  split <;> simp_all

/-- C9: an unrecognised ParameterSpec type name (such as the `text` used
by the bundled plugins) is silently accepted: `validateType` returns true
for every value under it, the manifest validator does not look at the
`parameter` field at all, and a spec carrying such a type produces
exactly the same violations as one with no declared type — it can never
cause a type-mismatch violation. -/
theorem c9_unrecognized_type_accepted :
    (∀ (v : JSValue) (t : String),
      t ∉ (["string", "number", "boolean", "email", "url"] : List String) →
      validateType v t = true) ∧
    (∀ (p : Plugin) (q : List ParamSpec),
      validatePlugin { p with parameter := q } = validatePlugin p) ∧
    (∀ (regexTest : String → String → Bool) (src : List (String × JSValue))
       (o : ParamSpecObj) (t : String), o.type = some t →
      t ∉ (["string", "number", "boolean", "email", "url"] : List String) →
      paramCheck regexTest src (.obj o)
        = paramCheck regexTest src (.obj { o with type := none })) := by
  refine ⟨fun v t h => validateType_default t h v, fun p q => rfl, ?_⟩
  intro regexTest src o t ht hmem
  simp only [paramCheck]
  by_cases hreq : (o.required.getD true && jsFalsyOpt (lookupParam src o.name)) = true
  · simp [hreq]
  · simp only [Bool.not_eq_true] at hreq
    rw [hreq]
    cases hlk : lookupParam src o.name with
    | none => rfl
    | some v =>
        rw [ht]
        by_cases hte : t = ""
        · simp [hte]
        · simp [hte, validateType_default t hmem v]

/-- C9 witness: the value `"hello world"` under the bundled plugins' type
`text` passes, and the spec-object equality at a concrete unrecognised
type. -/
theorem c9_witness :
    validateType (.str "hello world") "text" = true ∧
    paramCheck (fun _ _ => true) [("u", .str "x")]
        (.obj ⟨"u", some true, some "text", none, none, none⟩)
      = paramCheck (fun _ _ => true) [("u", .str "x")]
        (.obj ⟨"u", some true, none, none, none, none⟩) :=
  ⟨c9_unrecognized_type_accepted.1 (.str "hello world") "text" (by decide),
   c9_unrecognized_type_accepted.2.2 (fun _ _ => true) [("u", .str "x")]
     ⟨"u", some true, some "text", none, none, none⟩ "text" rfl (by decide)⟩

/-- A rate-limit denial does not write back to the store. -/
theorem checkRateLimit_denied_store (store : RLStore) (req : Request)
    (p : Plugin) (rl : RateLimitCfg)
    (hd : (checkRateLimit store req p rl).1.allowed = false) :
    (checkRateLimit store req p rl).2 = store := by
  simp only [checkRateLimit] at hd ⊢
  split_ifs at hd ⊢
  rfl

/-- C5: for every inbound request the guard pipeline runs authentication
(only when configured), then parameter validation, then rate limiting
(only when configured), then the exec stage, short-circuiting on the
first failure: an authentication failure is returned with the rate-limit
store untouched and exec never reached; a parameter-validation failure is
answered with the 400 payload and the untouched store regardless of the
client's rate-limit standing; a rate-limit denial is returned with the
store untouched; and only when every stage passes does the request reach
exec. -/
theorem c5_pipeline_order_short_circuit :
    ∀ (envToken : Option String) (regexTest : String → String → Bool)
      (p : Plugin) (store : RLStore) (req : Request),
    (∀ st msg, p.authentication = true →
      validateAuthentication envToken req = .fail st msg →
      withValidation envToken regexTest p store req = (.authFail st msg, store)) ∧
    ((p.authentication = true → validateAuthentication envToken req = .ok) →
      (validateParameters regexTest p req).valid = false →
      withValidation envToken regexTest p store req
        = (.validationFail (validateParameters regexTest p req).errors, store)) ∧
    ((p.authentication = true → validateAuthentication envToken req = .ok) →
      (validateParameters regexTest p req).valid = true →
      ∀ rl, p.rateLimit = some rl →
      (checkRateLimit store req p rl).1.allowed = false →
      withValidation envToken regexTest p store req
        = (.rateLimited (checkRateLimit store req p rl).1.retryAfter, store)) ∧
    ((p.authentication = true → validateAuthentication envToken req = .ok) →
      (validateParameters regexTest p req).valid = true →
      (p.rateLimit = none ∨
        ∃ rl, p.rateLimit = some rl ∧
          (checkRateLimit store req p rl).1.allowed = true) →
      (withValidation envToken regexTest p store req).1 = .execute) := by
  intro envToken regexTest p store req
  refine ⟨?_, ?_, ?_, ?_⟩
  · intro st msg ha hf
    unfold withValidation
    rw [ha, if_pos rfl, hf]
  · intro hok hval
    unfold withValidation
    cases hpa : p.authentication with
    | false => simp [hval]
    | true => simp [hok hpa, hval]
  · intro hok hval rl hrl hd
    unfold withValidation
    have hstore := checkRateLimit_denied_store store req p rl hd
    cases hpa : p.authentication with
    | false => simp [hval, hrl, hd, hstore]
    | true => simp [hok hpa, hval, hrl, hd, hstore]
  · intro hok hval hrl
    unfold withValidation
    cases hpa : p.authentication with
    | false =>
        rcases hrl with hnone | ⟨rl, hsome, hallow⟩
        · simp [hval, hnone]
        · simp [hval, hsome, hallow]
    | true =>
        rcases hrl with hnone | ⟨rl, hsome, hallow⟩
        · simp [hok hpa, hval, hnone]
        · simp [hok hpa, hval, hsome, hallow]

/-- C5 witness: for a plugin requiring authentication and carrying a rate
limit, a request with no Authorization header is answered 401 with the
store untouched and exec unreached. -/
theorem c5_witness :
    withValidation (some "tok") (fun _ _ => true)
      { rlWindowPlugin with authentication := true } [] (bareReq 0)
      = (.authFail 401 "Authorization header is required", []) :=
  (c5_pipeline_order_short_circuit (some "tok") (fun _ _ => true)
    { rlWindowPlugin with authentication := true } [] (bareReq 0)).1
    401 "Authorization header is required" (by decide) (by decide)

/-- Splitting a separator-free list yields one chunk. -/
theorem splitChar_eq_single (sep : Char) :
    ∀ l : List Char, l.contains sep = false → splitChar sep l = [l] := by
  intro l
  induction l with
  | nil => intro _; rfl
  | cons c r ih =>
      intro h
      rw [List.contains_cons, Bool.or_eq_false_iff] at h
      obtain ⟨h1, h2⟩ := h
      have hcs : ¬ c = sep := by
        intro he; rw [he] at h1; simp at h1
      simp only [splitChar, ih h2, if_neg hcs]

/-- Splitting at the first separator peels off the separator-free head. -/
theorem splitChar_append (sep : Char) :
    ∀ (pre rest : List Char), pre.contains sep = false →
    splitChar sep (pre ++ sep :: rest) = pre :: splitChar sep rest := by
  intro pre
  induction pre with
  | nil => intro rest _; simp [splitChar]
  | cons c cs ih =>
      intro rest h
      rw [List.contains_cons, Bool.or_eq_false_iff] at h
      obtain ⟨h1, h2⟩ := h
      have hcs : ¬ c = sep := by
        intro he; rw [he] at h1; simp at h1
      simp only [List.cons_append, splitChar, List.append_eq, ih rest h2, if_neg hcs]

/-- A list is a prefix of itself followed by anything. -/
theorem leadsWith_append (l m : List Char) : leadsWith l (l ++ m) = true := by
  induction l with
  | nil => rfl
  | cons p ps ih => simp [leadsWith, ih]

/-- A nonempty string has a nonempty character list. -/
theorem data_ne_nil_of_ne_empty (t : String) (h : t ≠ "") : t.data ≠ [] := by
  intro hd
  exact h (String.ext hd)

/-- `validateAuthentication` on a well-formed bearer header compares the
token against the configured secret. -/
theorem validateAuthentication_bearer (envToken : Option String) (t : String)
    (req : Request) (hreq : req.authorization = some ("Bearer " ++ t))
    (ht : t ≠ "") (hsp : t.data.contains ' ' = false) :
    validateAuthentication envToken req
      = if envToken = some t then .ok else .fail 403 "Invalid or expired token" := by
  have hdata : ("Bearer " ++ t).data = "Bearer".data ++ ' ' :: t.data := by
    rw [String.data_append]
    have : ("Bearer " : String).data = ("Bearer" : String).data ++ [' '] := by decide
    rw [this, List.append_assoc]
    rfl
  have hne : ("Bearer " ++ t) ≠ "" := by
    intro he
    have := congrArg String.data he
    rw [hdata] at this
    exact List.noConfusion this
  have hlw : leadsWith "Bearer ".data ("Bearer " ++ t).data = true := by
    rw [String.data_append]
    exact leadsWith_append _ _
  have hsplit : splitChar ' ' ("Bearer " ++ t).data = ["Bearer".data, t.data] := by
    rw [hdata, splitChar_append ' ' "Bearer".data t.data (by decide),
        splitChar_eq_single ' ' t.data hsp]
  unfold validateAuthentication
  rw [hreq]
  simp only [if_neg hne, hlw, Bool.not_true, Bool.false_eq_true, if_false, hsplit]
  have hemp : t.data.isEmpty = false := by
    cases hd : t.data with
    | nil => exact absurd hd (data_ne_nil_of_ne_empty t ht)
    | cons c cs => rfl
  simp only [List.get?, hemp, Bool.false_eq_true, if_false]
  have hmk : String.mk t.data = t := rfl
  rw [hmk]
  by_cases he : envToken = some t
  · simp [he]
  · simp [he]

/-- C6: with `authentication: true`, a missing Authorization header is
answered 401, a header not of the `Bearer <token>` shape is answered 401,
a well-formed bearer token different from the configured secret is
answered 403 (distinct from the 401s), and the correct token makes the
request proceed exactly as if authentication were disabled — that is, on
to parameter validation. -/
theorem c6_authentication_status_asymmetry :
    ∀ (envToken : Option String) (regexTest : String → String → Bool)
      (p : Plugin) (store : RLStore) (req : Request),
    p.authentication = true →
    ((req.authorization = none →
        withValidation envToken regexTest p store req
          = (.authFail 401 "Authorization header is required", store)) ∧
     (∀ h, req.authorization = some h → h ≠ "" →
        leadsWith "Bearer ".data h.data = false →
        withValidation envToken regexTest p store req
          = (.authFail 401 "Invalid authorization format. Use 'Bearer <token>'", store)) ∧
     (∀ t, req.authorization = some ("Bearer " ++ t) → t ≠ "" →
        t.data.contains ' ' = false → envToken ≠ some t →
        withValidation envToken regexTest p store req
          = (.authFail 403 "Invalid or expired token", store)) ∧
     (∀ t, req.authorization = some ("Bearer " ++ t) → t ≠ "" →
        t.data.contains ' ' = false → envToken = some t →
        withValidation envToken regexTest p store req
          = withValidation envToken regexTest
              { p with authentication := false } store req)) := by
  intro envToken regexTest p store req hauth
  have hval : ∀ st msg, validateAuthentication envToken req = .fail st msg →
      withValidation envToken regexTest p store req = (.authFail st msg, store) := by
    intro st msg hf
    unfold withValidation
    rw [hauth, if_pos rfl, hf]
  refine ⟨?_, ?_, ?_, ?_⟩
  · intro hnone
    apply hval
    unfold validateAuthentication
    rw [hnone]
  · intro h hsome hne hlw
    apply hval
    unfold validateAuthentication
    rw [hsome]
    simp only [if_neg hne, hlw, Bool.not_false, if_true]
  · intro t hsome hne hsp hmis
    apply hval
    rw [validateAuthentication_bearer envToken t req hsome hne hsp]
    simp [hmis]
  · intro t hsome hne hsp hmatch
    have hok : validateAuthentication envToken req = .ok := by
      rw [validateAuthentication_bearer envToken t req hsome hne hsp]
      simp [hmatch]
    unfold withValidation
    rw [hauth, if_pos rfl, hok]
    rfl

/-- C6 witness: at the concrete secret `tok`, the three failure shapes
and the pass-through of the correct token. -/
theorem c6_witness :
    withValidation (some "tok") (fun _ _ => true)
      { basicPlugin with authentication := true } []
      { bareReq 0 with authorization := some ("Bearer " ++ "tok") }
      = withValidation (some "tok") (fun _ _ => true)
          { { basicPlugin with authentication := true } with authentication := false } []
          { bareReq 0 with authorization := some ("Bearer " ++ "tok") } :=
  (c6_authentication_status_asymmetry (some "tok") (fun _ _ => true)
    { basicPlugin with authentication := true } []
    { bareReq 0 with authorization := some ("Bearer " ++ "tok") }
    (by decide)).2.2.2 "tok" rfl (by decide) (by decide) rfl

/-- Accumulating with `++` over a fold is joining the per-element lists. -/
theorem foldl_append_eq_join {α β : Type} (f : α → List β) :
    ∀ (l : List α) (acc : List β),
    l.foldl (fun a x => a ++ f x) acc = acc ++ (l.map f).flatten := by
  intro l
  induction l with
  | nil => intro acc; simp
  | cons x xs ih => intro acc; simp [ih, List.append_assoc]

/-- Strings of different lengths differ. -/
theorem ne_of_length_ne {a b : String} (h : a.length ≠ b.length) : a ≠ b :=
  fun he => h (he ▸ rfl)

/-- An authentication-passing request failing parameter validation is
answered with the 400 payload and an untouched store. -/
theorem withValidation_params_fail (envToken : Option String)
    (regexTest : String → String → Bool) (p : Plugin) (store : RLStore)
    (req : Request)
    (hok : p.authentication = true → validateAuthentication envToken req = .ok)
    (hval : (validateParameters regexTest p req).valid = false) :
    withValidation envToken regexTest p store req
      = (.validationFail (validateParameters regexTest p req).errors, store) := by
  unfold withValidation
  cases hpa : p.authentication with
  | false => simp [hval]
  | true => simp [hok hpa, hval]



/-- C7 counterexample: the parameter `url` is present in the query string
(with value `""`), yet validation reports the `required` violation — the
code tests JS falsiness of `source[name]`, not absence — refuting the
claimed "violation if and only if absent". -/
theorem c7_counterexample :
    validateParameters (fun _ _ => true) reqParamPlugin emptyUrlReq
      = ⟨false, ["Parameter 'url' is required"]⟩ ∧
    lookupParam (sourceOf reqParamPlugin emptyUrlReq) "url" = some (.str "") := by
  constructor
  · decide
  · decide

/-- C7 (amended): every ParameterSpec is checked independently and all
violations are accumulated into the single 400 response's details list; a
spec with `required = true` contributes the `required` violation exactly
when the named parameter is absent from the source **or present with a
JS-falsy value** (empty string, 0, false), and contributes no other
violation in that case; when the value is not falsy no `required`
violation arises; and a parameter that is absent and not required
contributes no violation at all. -/
theorem c7_param_validation_accumulation :
    ∀ (envToken : Option String) (regexTest : String → String → Bool)
      (p : Plugin) (req : Request) (store : RLStore),
    (p.parameter.isEmpty = false →
      (validateParameters regexTest p req).errors
        = (p.parameter.map (paramCheck regexTest (sourceOf p req))).flatten) ∧
    ((p.authentication = true → validateAuthentication envToken req = .ok) →
      (validateParameters regexTest p req).valid = false →
      withValidation envToken regexTest p store req
        = (.validationFail (validateParameters regexTest p req).errors, store)) ∧
    (∀ o : ParamSpecObj, o.required.getD true = true →
      ((jsFalsyOpt (lookupParam (sourceOf p req) o.name) = true →
          paramCheck regexTest (sourceOf p req) (.obj o)
            = ["Parameter '" ++ o.name ++ "' is required"]) ∧
       (jsFalsyOpt (lookupParam (sourceOf p req) o.name) = false →
          ("Parameter '" ++ o.name ++ "' is required")
            ∉ paramCheck regexTest (sourceOf p req) (.obj o)))) ∧
    (∀ o : ParamSpecObj, o.required.getD true = false →
      lookupParam (sourceOf p req) o.name = none →
      paramCheck regexTest (sourceOf p req) (.obj o) = []) := by
  intro envToken regexTest p req store
  refine ⟨?_, ?_, ?_, ?_⟩
  · intro hne
    unfold validateParameters
    rw [hne]
    simp only [Bool.false_eq_true, if_false]
    rw [foldl_append_eq_join (paramCheck regexTest (sourceOf p req)) p.parameter []]
    rfl
  · exact withValidation_params_fail envToken regexTest p store req
  · intro o hreq
    constructor
    · intro hfal
      simp only [paramCheck, hreq, hfal, Bool.and_self, if_pos]
    · intro hfal
      intro hmem
      simp only [paramCheck, hreq, hfal, Bool.and_false, Bool.false_eq_true,
        if_false] at hmem
      cases hlk : lookupParam (sourceOf p req) o.name with
      | none => rw [hlk] at hfal; exact Bool.noConfusion hfal
      | some v =>
          rw [hlk] at hmem
          have l1 : ("Parameter '" : String).length = 11 := by decide
          have l2 : ("' is required" : String).length = 13 := by decide
          have l3 : ("' must be of type " : String).length = 18 := by decide
          have l4 : ("' must be at least " : String).length = 19 := by decide
          have l5 : (" characters" : String).length = 11 := by decide
          have l6 : ("' must be at most " : String).length = 18 := by decide
          have l7 : ("' format is invalid" : String).length = 19 := by decide
          simp only [List.mem_append] at hmem
          rcases hmem with ((hm | hm) | hm) | hm
          · rcases hot : o.type with _ | t
            · rw [hot] at hm; exact absurd hm (List.not_mem_nil _)
            · rw [hot] at hm
              by_cases hc : (t ≠ "" && !validateType v t) = true
              · simp only [if_pos hc] at hm
                rw [List.mem_singleton] at hm
                have := congrArg String.length hm
                simp only [String.length_append, l1, l2, l3] at this
                omega
              · simp [if_neg hc] at hm
                have := congrArg String.length hm.2
                simp only [String.length_append, l1, l2, l3] at this
                omega
          · rcases hom : o.min with _ | m
            · rw [hom] at hm; exact absurd hm (List.not_mem_nil _)
            · rcases hjl : jsLength v with _ | len
              · rw [hom, hjl] at hm; exact absurd hm (List.not_mem_nil _)
              · rw [hom, hjl] at hm
                by_cases hc : len < m
                · simp only [if_pos hc] at hm
                  rw [List.mem_singleton] at hm
                  have := congrArg String.length hm
                  simp only [String.length_append, l1, l2, l4, l5] at this
                  omega
                · simp [if_neg hc] at hm
          · rcases hom : o.max with _ | m
            · rw [hom] at hm; exact absurd hm (List.not_mem_nil _)
            · rcases hjl : jsLength v with _ | len
              · rw [hom, hjl] at hm; exact absurd hm (List.not_mem_nil _)
              · rw [hom, hjl] at hm
                by_cases hc : len > m
                · simp only [if_pos hc] at hm
                  rw [List.mem_singleton] at hm
                  have := congrArg String.length hm
                  simp only [String.length_append, l1, l2, l6, l5] at this
                  omega
                · simp [if_neg hc] at hm
          · rcases hop : o.pattern with _ | pat
            · rw [hop] at hm; exact absurd hm (List.not_mem_nil _)
            · rw [hop] at hm
              by_cases hc : (pat ≠ "" && !regexTest pat (jsToString v)) = true
              · simp only [if_pos hc] at hm
                rw [List.mem_singleton] at hm
                have := congrArg String.length hm
                simp only [String.length_append, l1, l2, l7] at this
                omega
              · simp [if_neg hc] at hm
                have := congrArg String.length hm.2
                simp only [String.length_append, l1, l2, l7] at this
                omega
  · intro o hreq hlk
    simp only [paramCheck, hreq, hlk, Bool.false_and, Bool.false_eq_true, if_false]

/-- C7 witness: a GET request whose query supplies `url` with a nonempty
value produces no `required` violation, at concrete inputs. -/
theorem c7_witness :
    ("Parameter '" ++ "url" ++ "' is required")
      ∉ paramCheck (fun _ _ => true)
          (sourceOf reqParamPlugin { bareReq 0 with query := [("url", .str "x")] })
          (.obj ⟨"url", some true, none, none, none, none⟩) :=
  ((c7_param_validation_accumulation none (fun _ _ => true) reqParamPlugin
      { bareReq 0 with query := [("url", .str "x")] } []).2.2.1
    ⟨"url", some true, none, none, none, none⟩ (by decide)).2 (by decide)

/-- The integer computation `-((-a) / 1000)` used to model
`Math.ceil(a / 1000)` really is the ceiling of the exact quotient. -/
theorem jsCeilDiv_eq_ceil (a : Int) :
    jsCeilDiv a 1000 = Int.ceil ((a : ℚ) / 1000) := by
  unfold jsCeilDiv
  have h := Rat.floor_intCast_div_natCast (-a) 1000
  have h2 : Int.ceil ((a : ℚ) / 1000) = -Int.floor (-((a : ℚ) / 1000)) := by
    rw [Int.floor_neg, neg_neg]
  rw [h2, ← neg_div]
  have h3 : (-(a : ℚ)) = ((-a : ℤ) : ℚ) := by push_cast; ring
  have h4 : ((1000 : ℚ)) = ((1000 : ℕ) : ℚ) := by norm_num
  rw [h3, h4, h]
  norm_num

/-- C4: whenever `checkRateLimit` denies (the pruned sequence holds at
least `limit` entries, `limit ≥ 1`), the store is returned unchanged and
the retry hint is exactly `ceil((window - (now - oldest)) / 1000)` over
the oldest surviving timestamp; whenever it allows, exactly the current
timestamp is appended to the pruned sequence and the stored sequence
never exceeds `limit` entries. -/
theorem c4_denial_non_mutating_exact_retry :
    ∀ (store : RLStore) (req : Request) (p : Plugin) (rl : RateLimitCfg),
    (1 ≤ rl.limit → rl.limit ≤ (rlPruned store req p rl).length →
      ∃ w oldest, rl.window = some w ∧
        jsMinList (rlPruned store req p rl) = some oldest ∧
        checkRateLimit store req p rl
          = (⟨false, some (Int.ceil (((w - (req.now - oldest)) : ℚ) / 1000))⟩,
             store)) ∧
    ((rlPruned store req p rl).length < rl.limit →
      checkRateLimit store req p rl
        = (⟨true, none⟩,
           setAssoc store (rlKey req p) (rlPruned store req p rl ++ [req.now])) ∧
      (rlPruned store req p rl ++ [req.now]).length ≤ rl.limit) := by
  intro store req p rl
  constructor
  · intro h1 hlen
    have hw : ∃ w, rl.window = some w := by
      cases hwc : rl.window with
      | some w => exact ⟨w, rfl⟩
      | none =>
          have hnil : rlPruned store req p rl = [] := by
            unfold rlPruned
            rw [hwc]
            simp
          rw [hnil] at hlen
          simp at hlen
          omega
    obtain ⟨w, hw⟩ := hw
    have hmin : ∃ o, jsMinList (rlPruned store req p rl) = some o := by
      cases hp : rlPruned store req p rl with
      | nil => rw [hp] at hlen; simp at hlen; omega
      | cons x xs => exact ⟨xs.foldl min x, by rfl⟩
    obtain ⟨oldest, hold⟩ := hmin
    refine ⟨w, oldest, hw, hold, ?_⟩
    simp only [checkRateLimit]
    rw [if_pos hlen, hold, hw]
    simp only [jsCeilDiv_eq_ceil]
    push_cast
    rfl
  · intro hlen
    have hnle : ¬ rl.limit ≤ (rlPruned store req p rl).length := by omega
    constructor
    · simp only [checkRateLimit]
      rw [if_neg hnle]
    · have : (rlPruned store req p rl ++ [req.now]).length
          = (rlPruned store req p rl).length + 1 := by simp
      omega

/-- C4 witness: at the concrete store holding three timestamps inside the
window, the fourth check at t = 300 denies with retryAfter 1 and leaves
the store unchanged; the same check against an emptier store allows and
appends exactly t. -/
theorem c4_witness :
    ∃ w oldest, (⟨3, some 1000⟩ : RateLimitCfg).window = some w ∧
      jsMinList (rlPruned [("c-pi", [0, 100, 200])] (bareReq 300)
        rlWindowPlugin ⟨3, some 1000⟩) = some oldest ∧
      checkRateLimit [("c-pi", [0, 100, 200])] (bareReq 300)
          rlWindowPlugin ⟨3, some 1000⟩
        = (⟨false, some (Int.ceil (((w - ((bareReq 300).now - oldest)) : ℚ) / 1000))⟩,
           [("c-pi", [0, 100, 200])]) :=
  (c4_denial_non_mutating_exact_retry [("c-pi", [0, 100, 200])] (bareReq 300)
    rlWindowPlugin ⟨3, some 1000⟩).1 (by decide) (by decide)

/-- C3 counterexample: a descriptor carrying the claim's literal field
names `rateLimit = {limit: 3, windowMs: 1000}` leaves the destructured
`window` undefined, so the prune discards every stored timestamp and the
4th (and every further) request from the same client within 1000 ms is
allowed instead of being denied with 429. -/
theorem c3_counterexample :
    (runRequests none (fun _ _ => true) rlWindowMsPlugin []
      [bareReq 0, bareReq 100, bareReq 200, bareReq 300]).1
      = [.execute, .execute, .execute, .execute] := by decide

/-- C3 (amended): with the code's actual field name — `rateLimit =
{limit: 3, window: 1000}`, as every bundled plugin writes it — the first
three requests of a same-client burst are executed, the 4th within
1000 ms of the 1st is denied with 429 (retryAfter 1), and a later request
issued at least 1000 ms after the 3rd recorded one is allowed again. -/
theorem c3_amended_window_field :
    ∀ t1 t2 t3 t4 t5 : Int,
    t1 ≤ t2 → t2 ≤ t3 → t3 ≤ t4 → t4 - t1 < 1000 → t3 + 1000 ≤ t5 →
    (runRequests none (fun _ _ => true) rlWindowPlugin []
      [bareReq t1, bareReq t2, bareReq t3, bareReq t4, bareReq t5]).1
      = [.execute, .execute, .execute, .rateLimited (some 1), .execute] := by
  intro t1 t2 t3 t4 t5 h12 h23 h34 h41 h5
  have hkey : ∀ t : Int,
      rlKey { authorization := none, query := [], body := [], ip := "c", now := t }
        rlWindowPlugin = "c-pi" := by
    intro t
    show "c" ++ "-" ++ "pi" = "c-pi"
    decide
  have f21 : t2 - t1 < 1000 := by omega
  have f31 : t3 - t1 < 1000 := by omega
  have f32 : t3 - t2 < 1000 := by omega
  have f42 : t4 - t2 < 1000 := by omega
  have f43 : t4 - t3 < 1000 := by omega
  have f51 : ¬ (t5 - t1 < 1000) := by omega
  have f52 : ¬ (t5 - t2 < 1000) := by omega
  have f53 : ¬ (t5 - t3 < 1000) := by omega
  have hmin : min (min t1 t2) t3 = t1 := by
    rw [min_eq_left h12, min_eq_left (le_trans h12 h23)]
  have hretry : jsCeilDiv (1000 - (t4 - t1)) 1000 = 1 := by
    unfold jsCeilDiv
    omega
  have s1 : checkRateLimit [] (bareReq t1) rlWindowPlugin ⟨3, some 1000⟩
      = (⟨true, none⟩, [("c-pi", [t1])]) := by
    simp [checkRateLimit, rlPruned, getTimes, hkey, setAssoc, bareReq]
  have s2 : checkRateLimit [("c-pi", [t1])] (bareReq t2) rlWindowPlugin ⟨3, some 1000⟩
      = (⟨true, none⟩, [("c-pi", [t1, t2])]) := by
    simp [checkRateLimit, rlPruned, getTimes, hkey, setAssoc, bareReq, f21]
  have s3 : checkRateLimit [("c-pi", [t1, t2])] (bareReq t3) rlWindowPlugin ⟨3, some 1000⟩
      = (⟨true, none⟩, [("c-pi", [t1, t2, t3])]) := by
    simp [checkRateLimit, rlPruned, getTimes, hkey, setAssoc, bareReq, f31, f32]
  have s4 : checkRateLimit [("c-pi", [t1, t2, t3])] (bareReq t4) rlWindowPlugin ⟨3, some 1000⟩
      = (⟨false, some 1⟩, [("c-pi", [t1, t2, t3])]) := by
    simp [checkRateLimit, rlPruned, getTimes, hkey, jsMinList, bareReq, h41, f42, f43, hmin, hretry]
  have s5 : checkRateLimit [("c-pi", [t1, t2, t3])] (bareReq t5) rlWindowPlugin ⟨3, some 1000⟩
      = (⟨true, none⟩, [("c-pi", [t5])]) := by
    simp [checkRateLimit, rlPruned, getTimes, hkey, setAssoc, bareReq, f51, f52, f53]
  have ha : rlWindowPlugin.authentication = false := rfl
  have hrl : rlWindowPlugin.rateLimit = some ⟨3, some 1000⟩ := rfl
  have hvp : ∀ t : Int, validateParameters (fun _ _ => true) rlWindowPlugin (bareReq t)
      = ⟨true, []⟩ := fun t => rfl
  have wv : ∀ (store store' : RLStore) (t : Int) (res : RLResult),
      checkRateLimit store (bareReq t) rlWindowPlugin ⟨3, some 1000⟩ = (res, store') →
      withValidation none (fun _ _ => true) rlWindowPlugin store (bareReq t)
        = (if res.allowed then .execute else .rateLimited res.retryAfter, store') := by
    intro store store' t res hc
    unfold withValidation
    rw [ha]
    simp only [Bool.false_eq_true, if_false]
    rw [hvp t]
    simp only [Bool.not_true, Bool.false_eq_true, if_false]
    rw [hrl]
    simp only [hc]
    cases hres : res.allowed <;> simp [hres]
  have w1 := wv [] [("c-pi", [t1])] t1 ⟨true, none⟩ s1
  have w2 := wv [("c-pi", [t1])] [("c-pi", [t1, t2])] t2 ⟨true, none⟩ s2
  have w3 := wv [("c-pi", [t1, t2])] [("c-pi", [t1, t2, t3])] t3 ⟨true, none⟩ s3
  have w4 := wv [("c-pi", [t1, t2, t3])] [("c-pi", [t1, t2, t3])] t4 ⟨false, some 1⟩ s4
  have w5 := wv [("c-pi", [t1, t2, t3])] [("c-pi", [t5])] t5 ⟨true, none⟩ s5
  simp only [runRequests, w1, w2, w3, w4, w5]
  simp

/-- C3 witness: the amended statement at the concrete times
0, 100, 200, 300, 1300 ms. -/
theorem c3_witness :
    (runRequests none (fun _ _ => true) rlWindowPlugin []
      [bareReq 0, bareReq 100, bareReq 200, bareReq 300, bareReq 1300]).1
      = [.execute, .execute, .execute, .rateLimited (some 1), .execute] :=
  c3_amended_window_field 0 100 200 300 1300 (by decide) (by decide)
    (by decide) (by decide) (by decide)
